import Mathlib

/-!
Verification of the `asahi/compiler/agx_opcodes.h.py` generator (a Mako
template that renders a C header from three schema inputs: an ordered
opcode-name list, an ordered immediate-kind list, and an ordered map from
enum-group name to an ordered integer-to-label map).

The embedding translates the template line by line: Mako control lines
(`% for`, `% endfor`, `<% ... %>`) emit no text, `${...}` interpolates, and
every literal line of the template becomes one string in a line list.  The
single schema check in the source is the template-level
`assert(len(immediates) < 64)`; when it fires, `Template.render` raises and
the module-level `print` never runs, so no artifact text is emitted — this is
modelled by `render` returning `Except.error` with no artifact.  Python
dictionaries guarantee key uniqueness and (since 3.7) insertion order, so the
enum maps are embedded as ordered association lists, with key-uniqueness as an
explicit hypothesis where a property depends on it.
-/

namespace AgxOpcodes

/-- Schema input of the generator: `opcodes`, `immediates` and `enums`
imported from the external `agx_opcodes` module.  `enums` maps a group name to
an ordered list of (integer key, label) pairs, embedding the Python dict in
its iteration order. -/
structure Schema where
  opcodes : List String
  immediates : List String
  enums : List (String × List (Nat × String))

/-- Character-level embedding of Python `str.upper()`: upper-case every
character (the identifiers fed to the template are ASCII, where
`Char.toUpper` agrees with Python). -/
def strUpper (s : String) : String := ⟨s.data.map Char.toUpper⟩

/-- Embedding of `v.replace('.', '_').upper()` used for enum labels: the
pattern is a single character, so the replacement is a character map,
followed by upper-casing. -/
def normLabel (v : String) : String :=
  strUpper ⟨v.data.map (fun c => if c = '.' then '_' else c)⟩

/-- Template lines 1-12: copyright banner, opening include guard and
`#include` lines. -/
def headerTopLines : List String :=
  ["/*",
   " * Copyright 2021 Alyssa Rosenzweig",
   " * SPDX-License-Identifier: MIT",
   " */",
   "",
   "#ifndef _AGX_OPCODES_",
   "#define _AGX_OPCODES_",
   "",
   "#include <stdbool.h>",
   "#include <stdint.h>",
   "#include \"util/macros.h\"",
   ""]

/-- The eight fixed enumerant names of `enum agx_schedule_class`, in template
order (lines 14-21). -/
def scheduleClassNames : List String :=
  ["AGX_SCHEDULE_CLASS_INVALID",
   "AGX_SCHEDULE_CLASS_NONE",
   "AGX_SCHEDULE_CLASS_LOAD",
   "AGX_SCHEDULE_CLASS_STORE",
   "AGX_SCHEDULE_CLASS_ATOMIC",
   "AGX_SCHEDULE_CLASS_COVERAGE",
   "AGX_SCHEDULE_CLASS_PRELOAD",
   "AGX_SCHEDULE_CLASS_BARRIER"]

/-- C enum semantics of `enum agx_schedule_class`: enumerants carry no
initializers, so the i-th one has value i. -/
def scheduleClassEnumerants : List (String × Nat) :=
  scheduleClassNames.enum.map (fun p => (p.2, p.1))

/-- Template lines 13-22 (plus the following blank line): the fixed
`enum agx_schedule_class` block, independent of the schema. -/
def scheduleClassLines : List String :=
  ["enum agx_schedule_class \x7b"]
  ++ scheduleClassNames.map (fun n => "   " ++ n ++ ",")
  ++ ["\x7d;", ""]

/-- Enumerant name generated for one opcode: `AGX_OPCODE_${op.upper()}`
(template line 28).  Note: upper-casing only, no dot replacement. -/
def opcodeEnumerantName (op : String) : String :=
  "AGX_OPCODE_" ++ strUpper op

/-- C enum semantics of `enum agx_opcode`: the enumerant for the opcode at
input position i has value i (no initializers). -/
def opcodeEnumerants (opcodes : List String) : List (String × Nat) :=
  opcodes.enum.map (fun p => (opcodeEnumerantName p.2, p.1))

/-- C enum semantics of the trailing `AGX_NUM_OPCODES` sentinel: it follows
`len(opcodes)` uninitialized enumerants, so its value is `len(opcodes)`. -/
def sentinelValue (opcodes : List String) : Nat := opcodes.length

/-- Template lines 24-31 (with surrounding blanks): comment plus the
`enum agx_opcode` block with one line per opcode and the sentinel. -/
def opcodeEnumLines (opcodes : List String) : List String :=
  ["/* Listing of opcodes */", "", "enum agx_opcode \x7b"]
  ++ opcodes.map (fun op => "   " ++ opcodeEnumerantName op ++ ",")
  ++ ["   AGX_NUM_OPCODES", "\x7d;", ""]

/-- Enumerant name for entry (k, v) of enum group `name`:
`AGX_${name.upper()}_${v.replace('.', '_').upper()}` (template line 36). -/
def enumEnumerantName (name : String) (v : String) : String :=
  "AGX_" ++ strUpper name ++ "_" ++ normLabel v

/-- C enum semantics of `enum agx_${name}`: the entry (k, v) declares an
enumerant named from the normalized label with explicit value `= k`. -/
def enumGroupEnumerants (name : String) (entries : List (Nat × String)) :
    List (String × Nat) :=
  entries.map (fun kv => (enumEnumerantName name kv.2, kv.1))

/-- Template lines 34-50 for one enum group: the enum block, then the
`agx_${name}_as_str` reflection function with one `case` per entry and an
`UNREACHABLE` default. -/
def enumGroupLines (name : String) (entries : List (Nat × String)) :
    List String :=
  ["enum agx_" ++ name ++ " \x7b"]
  ++ entries.map (fun kv =>
        "   " ++ enumEnumerantName name kv.2 ++ " = " ++ toString kv.1 ++ ",")
  ++ ["\x7d;",
      "",
      "static inline const char *",
      "agx_" ++ name ++ "_as_str(enum agx_" ++ name ++ " x)",
      "\x7b",
      "    switch (x) \x7b"]
  ++ entries.map (fun kv =>
        "    case " ++ enumEnumerantName name kv.2 ++ ": return \"" ++ kv.2 ++ "\";")
  ++ ["    default: UNREACHABLE(\"Nonexhaustive enum\");",
      "    \x7d",
      "\x7d",
      ""]

/-- Semantics of the generated `agx_${name}_as_str` switch: the case label
for entry (k, v) is the enumerant whose value is k, and that case returns the
original label `v`; the `default: UNREACHABLE(...)` branch (reached exactly
when the argument matches no declared key) is modelled as `none`. -/
def as_str (entries : List (Nat × String)) (x : Nat) : Option String :=
  (entries.find? (fun kv => kv.1 == x)).map Prod.snd

/-- Flag name for one immediate kind: `AGX_IMMEDIATE_${imm.upper()}`
(template line 59). -/
def immediateFlagName (imm : String) : String :=
  "AGX_IMMEDIATE_" ++ strUpper imm

/-- Value semantics of `enum agx_immediate`: the kind at input position i is
assigned `(1ull << i)`, a 64-bit shift, i.e. `2 ^ i` reduced modulo `2 ^ 64`
(template lines 58-60, `enumerate(immediates)`). -/
def immediateFlags (immediates : List String) : List (String × Nat) :=
  immediates.enum.map (fun p => (immediateFlagName p.2, 2 ^ p.1 % 2 ^ 64))

/-- Template lines 52-61 (with the blank lines around the comment and the
`<% %>` assert line): the `enum agx_immediate` block. -/
def immediateFlagLines (immediates : List String) : List String :=
  ["", "/* Runtime accessible info on each defined opcode */", "", "", "",
   "enum agx_immediate \x7b"]
  ++ immediates.enum.map (fun p =>
        "   " ++ immediateFlagName p.2 ++ " = (1ull << " ++ toString p.1 ++ "),")
  ++ ["\x7d;", ""]

/-- Template lines 63-67: the fixed `struct agx_encoding` definition. -/
def encodingLines : List String :=
  ["struct agx_encoding \x7b",
   "   uint64_t exact;",
   "   unsigned length_short : 4;",
   "   bool extensible : 1;",
   "\x7d;",
   ""]

/-- Template lines 69-79: the fixed `struct agx_opcode_info` definition. -/
def opcodeInfoLines : List String :=
  ["struct agx_opcode_info \x7b",
   "   const char *name;",
   "   unsigned nr_srcs;",
   "   unsigned nr_dests;",
   "   uint64_t immediates;",
   "   struct agx_encoding encoding;",
   "   enum agx_schedule_class schedule_class;",
   "   bool is_float : 1;",
   "   bool can_eliminate : 1;",
   "   bool can_reorder : 1;",
   "\x7d;",
   ""]

/-- Template line 81 plus the following blank: the extern declaration of the
opcode-info table, sized by the sentinel. -/
def infoTableDeclLines : List String :=
  ["extern const struct agx_opcode_info agx_opcodes_info[AGX_NUM_OPCODES];",
   ""]

/-- Template line 83: closing include guard. -/
def headerBottomLines : List String := ["#endif"]

/-- Tags naming the artifact's sections, used to state section-order
properties. -/
inductive ArtSection where
  | headerTop : ArtSection
  | scheduleClass : ArtSection
  | opcodeEnum : ArtSection
  | enumGroup : String → ArtSection
  | immediateFlags : ArtSection
  | encodingRecord : ArtSection
  | opcodeInfoRecord : ArtSection
  | infoTableDecl : ArtSection
  | headerBottom : ArtSection
deriving DecidableEq

/-- The artifact as its sections in the order the template emits them:
header guard top, `agx_schedule_class`, `agx_opcode`, the per-group
enum/reflection blocks in iteration order, `agx_immediate`, the two struct
definitions, the extern table declaration, and the closing guard. -/
def artifactSections (s : Schema) : List (ArtSection × List String) :=
  [(ArtSection.headerTop, headerTopLines),
   (ArtSection.scheduleClass, scheduleClassLines),
   (ArtSection.opcodeEnum, opcodeEnumLines s.opcodes)]
  ++ s.enums.map (fun g => (ArtSection.enumGroup g.1, enumGroupLines g.1 g.2))
  ++ [(ArtSection.immediateFlags, immediateFlagLines s.immediates),
      (ArtSection.encodingRecord, encodingLines),
      (ArtSection.opcodeInfoRecord, opcodeInfoLines),
      (ArtSection.infoTableDecl, infoTableDeclLines),
      (ArtSection.headerBottom, headerBottomLines)]

/-- The lines of the rendered artifact, in order. -/
def artifactLines (s : Schema) : List String :=
  ((artifactSections s).map Prod.snd).flatten

/-- The rendered artifact text. -/
def artifactText (s : Schema) : String :=
  String.intercalate "\n" (artifactLines s)

/-- Error value modelling the template-level `assert(len(immediates) < 64)`
failure (the spec's SchemaError). -/
def schemaError : String := "SchemaError: assert len(immediates) < 64"

/-- The generator: `Template(template).render(...)` followed by `print`.  The
only schema check in the source is the template's
`assert(len(immediates) < 64)`; when it fails, `render` raises before the
`print`, so no artifact text is produced — modelled as `Except.error`
carrying no artifact.  Otherwise the full artifact text is produced. -/
def render (s : Schema) : Except String String :=
  if s.immediates.length < 64 then
    Except.ok (artifactText s)
  else
    Except.error schemaError

/-- True exactly when the generator produces an artifact. -/
def rendersOk (s : Schema) : Bool :=
  match render s with
  | Except.ok _ => true
  | Except.error _ => false

/-- Section order asserted by claim C3 (and spec section 4.5): header guard,
ScheduleClass, per-EnumGroup sections, immediate flags, the two record
definitions, then the opcode enumeration, then the extern table declaration.
This definition follows the claim's words, for comparison with
`artifactSections`. -/
def claimedSectionOrder (s : Schema) : List ArtSection :=
  [ArtSection.headerTop, ArtSection.scheduleClass]
  ++ s.enums.map (fun g => ArtSection.enumGroup g.1)
  ++ [ArtSection.immediateFlags, ArtSection.encodingRecord,
      ArtSection.opcodeInfoRecord, ArtSection.opcodeEnum,
      ArtSection.infoTableDecl, ArtSection.headerBottom]

/-- Section order the template actually emits: the opcode enumeration comes
directly after the schedule-class enumeration, before the enum groups. -/
def sectionOrder (s : Schema) : List ArtSection :=
  [ArtSection.headerTop, ArtSection.scheduleClass, ArtSection.opcodeEnum]
  ++ s.enums.map (fun g => ArtSection.enumGroup g.1)
  ++ [ArtSection.immediateFlags, ArtSection.encodingRecord,
      ArtSection.opcodeInfoRecord, ArtSection.infoTableDecl,
      ArtSection.headerBottom]

/-- The spec's concrete-scenario schema: opcodes `["add","mov"]`, immediates
`["imm16"]`, one enum group `size` with entries 0 to "8", 1 to "16",
2 to "32". -/
def c8Schema : Schema :=
  { opcodes := ["add", "mov"], immediates := ["imm16"],
    enums := [("size", [(0, "8"), (1, "16"), (2, "32")])] }

/-- C1 counterexample: the generator performs no opcode-name or enum-group
validation, so a duplicated opcode name, an empty opcode name, and a
duplicate normalized enum label (here "a.b" and "a_b" both normalize to
"A_B") all render successfully instead of failing with a SchemaError. -/
theorem C1_counterexample :
    rendersOk { opcodes := ["add", "add"], immediates := [], enums := [] } = true ∧
    rendersOk { opcodes := [""], immediates := [], enums := [] } = true ∧
    rendersOk { opcodes := ["mov"], immediates := [],
                enums := [("g", [(0, "a.b"), (1, "a_b")])] } = true :=
  ⟨rfl, rfl, rfl⟩

/-- C1 (amended): generation fails only when the immediate-kind count
reaches 64; empty or duplicated opcode names and duplicate normalized enum
labels are not validated, and generation succeeds on them whenever the
immediate bound holds. -/
theorem C1_amended (s : Schema) : rendersOk s = true ↔ s.immediates.length < 64 := by
  unfold rendersOk render
  by_cases h : s.immediates.length < 64 <;> simp [h]

/-- C2: when the immediate-kind list has length at least 64, the generator
fails with the SchemaError and produces no artifact (the error result carries
no text); with exactly 63 immediate kinds the strict bound passes and the
full artifact is produced. -/
theorem C2_immediate_bound (s : Schema) :
    (64 ≤ s.immediates.length → render s = Except.error schemaError) ∧
    (s.immediates.length = 63 → render s = Except.ok (artifactText s)) := by
  constructor
  · intro h
    unfold render
    rw [if_neg (by omega)]
  · intro h
    unfold render
    rw [if_pos (by omega)]

/-- C2 witness: a schema with 64 immediate kinds fails with the SchemaError,
and one with 63 immediate kinds renders the full artifact. -/
theorem C2_witness :
    (64 ≤ (List.replicate 64 "k").length ∧
      render { opcodes := [], immediates := List.replicate 64 "k", enums := [] } =
        Except.error schemaError) ∧
    ((List.replicate 63 "k").length = 63 ∧
      render { opcodes := [], immediates := List.replicate 63 "k", enums := [] } =
        Except.ok (artifactText
          { opcodes := [], immediates := List.replicate 63 "k", enums := [] })) :=
  ⟨⟨by decide, (C2_immediate_bound _).1 (by decide)⟩,
   ⟨by decide, (C2_immediate_bound _).2 (by decide)⟩⟩

/-- C3 counterexample: the artifact's sections are not in the order the claim
states; on a schema with one enum group, the opcode enumeration appears
before the enum-group section, not after the record definitions. -/
theorem C3_counterexample :
    (artifactSections { opcodes := ["add"], immediates := [],
                        enums := [("size", [(0, "8")])] }).map Prod.fst ≠
      claimedSectionOrder { opcodes := ["add"], immediates := [],
                            enums := [("size", [(0, "8")])] } := by
  decide

/-- C3 (amended): for every schema the artifact's sections appear in exactly
this order: header guard, ScheduleClass enumeration, the opcode enumeration,
the per-EnumGroup enumerations and reflection functions in schema-declaration
order, the immediate bit-flag enumeration, the EncodingShape and
OpcodeInfoShape record definitions, the extern declaration of the opcode-info
table, and the closing guard. -/
theorem C3_amended (s : Schema) :
    (artifactSections s).map Prod.fst = sectionOrder s := by
  simp only [artifactSections, sectionOrder, List.map_append, List.map_map,
    List.map_cons, List.map_nil]
  rfl

/-- C7: the generator is a deterministic pure function of the schema; on
equal inputs it yields byte-identical results. -/
theorem C7_deterministic (s t : Schema) (h : s = t) : render s = render t := by
  rw [h]

/-- C7 witness: determinism instantiated at a concrete schema. -/
theorem C7_witness :
    render { opcodes := ["add"], immediates := ["i"], enums := [] } =
      render { opcodes := ["add"], immediates := ["i"], enums := [] } :=
  C7_deterministic _ _ rfl

/-- C10: for every schema, the second section of the artifact is the fixed
schedule-class enumeration, whose eight enumerants are, in order, INVALID
(value 0, the zero-initialized default), NONE, LOAD, STORE, ATOMIC, COVERAGE,
PRELOAD, BARRIER, independent of the schema input. -/
theorem C10_schedule_class (s : Schema) :
    (artifactSections s)[1]? = some (ArtSection.scheduleClass, scheduleClassLines) ∧
    scheduleClassEnumerants =
      [("AGX_SCHEDULE_CLASS_INVALID", 0), ("AGX_SCHEDULE_CLASS_NONE", 1),
       ("AGX_SCHEDULE_CLASS_LOAD", 2), ("AGX_SCHEDULE_CLASS_STORE", 3),
       ("AGX_SCHEDULE_CLASS_ATOMIC", 4), ("AGX_SCHEDULE_CLASS_COVERAGE", 5),
       ("AGX_SCHEDULE_CLASS_PRELOAD", 6), ("AGX_SCHEDULE_CLASS_BARRIER", 7)] ∧
    scheduleClassEnumerants.length = 8 :=
  ⟨rfl, by decide, by decide⟩

/-- Helper for C4: with pairwise-distinct keys (guaranteed by the Python
dict), the first key match found is the declared pair itself. -/
theorem find_key_of_mem (entries : List (Nat × String)) (k : Nat) (v : String)
    (hnd : (entries.map Prod.fst).Nodup) (hm : (k, v) ∈ entries) :
    entries.find? (fun kv => kv.1 == k) = some (k, v) := by
  induction entries with
  | nil => cases hm
  | cons a l ih =>
    simp only [List.map_cons, List.nodup_cons] at hnd
    rcases List.mem_cons.1 hm with h | h
    · subst h
      exact List.find?_cons_of_pos _ (by simp)
    · have hne : ¬ ((fun kv : Nat × String => kv.1 == k) a = true) := by
        simp only [beq_iff_eq]
        intro he
        apply hnd.1
        rw [he]
        exact List.mem_map_of_mem Prod.fst h
      have hstep : List.find? (fun kv : Nat × String => kv.1 == k) (a :: l) =
          List.find? (fun kv : Nat × String => kv.1 == k) l :=
        List.find?_cons_of_neg l hne
      rw [hstep]
      exact ih hnd.2 h

/-- C4: for an enum group with distinct integer keys (as a Python dict
guarantees), the generated reflection function maps the enumerant declared
for each (key, label) pair — whose value is the key — to exactly the
original, non-normalized label; any value outside the declared key set
reaches the UNREACHABLE default (modelled as `none`) rather than returning a
label. -/
theorem C4_reflection_roundtrip (entries : List (Nat × String))
    (hnd : (entries.map Prod.fst).Nodup) :
    (∀ kv ∈ entries, as_str entries kv.1 = some kv.2) ∧
    (∀ x, x ∉ entries.map Prod.fst → as_str entries x = none) := by
  constructor
  · intro kv hkv
    unfold as_str
    rw [find_key_of_mem entries kv.1 kv.2 hnd hkv]
    rfl
  · intro x hx
    unfold as_str
    have hnone : entries.find? (fun kv => kv.1 == x) = none := by
      rw [List.find?_eq_none]
      intro kv hkv
      simp only [beq_iff_eq]
      intro he
      apply hx
      rw [← he]
      exact List.mem_map_of_mem Prod.fst hkv
    rw [hnone]
    rfl

/-- C4 witness: on the size group, the enumerant of key 1 reflects back to
"16", and the undeclared value 5 reaches the unreachable default. -/
theorem C4_witness :
    (([(0, "8"), (1, "16"), (2, "32")] : List (Nat × String)).map Prod.fst).Nodup ∧
    as_str [(0, "8"), (1, "16"), (2, "32")] 1 = some "16" ∧
    as_str [(0, "8"), (1, "16"), (2, "32")] 5 = none :=
  ⟨by decide,
   (C4_reflection_roundtrip _ (by decide)).1 (1, "16") (by decide),
   (C4_reflection_roundtrip _ (by decide)).2 5 (by decide)⟩

/-- C5: under the generator's immediate bound, the flag list pairs the kind
at input position i with the value `2 ^ i` (the 64-bit shift `1ull << i`
does not wrap), the assignment is injective (no two kinds share a bit), and
the names are the upper-cased kinds in input order. -/
theorem C5_immediate_flags (immediates : List String)
    (h : immediates.length < 64) :
    (immediateFlags immediates).map Prod.fst = immediates.map immediateFlagName ∧
    (immediateFlags immediates).map Prod.snd =
      (List.range immediates.length).map (fun i => 2 ^ i) ∧
    ((immediateFlags immediates).map Prod.snd).Nodup := by
  have hfst : (immediateFlags immediates).map Prod.fst =
      immediates.map immediateFlagName := by
    simp only [immediateFlags, List.map_map]
    rw [show (Prod.fst ∘ fun p : Nat × String =>
          (immediateFlagName p.2, 2 ^ p.1 % 2 ^ 64)) =
        (immediateFlagName ∘ Prod.snd) from rfl]
    rw [← List.map_map, List.enum_map_snd]
  have hsnd0 : (immediateFlags immediates).map Prod.snd =
      (List.range immediates.length).map (fun i => 2 ^ i % 2 ^ 64) := by
    simp only [immediateFlags, List.map_map]
    rw [show (Prod.snd ∘ fun p : Nat × String =>
          (immediateFlagName p.2, 2 ^ p.1 % 2 ^ 64)) =
        ((fun i => 2 ^ i % 2 ^ 64) ∘ Prod.fst) from rfl]
    rw [← List.map_map, List.enum_map_fst]
  have hsnd : (immediateFlags immediates).map Prod.snd =
      (List.range immediates.length).map (fun i => 2 ^ i) := by
    rw [hsnd0]
    refine List.map_congr_left ?_
    intro i hi
    have hi64 : i < 64 := lt_trans (List.mem_range.1 hi) h
    exact Nat.mod_eq_of_lt (Nat.pow_lt_pow_right (by norm_num) hi64)
  refine ⟨hfst, hsnd, ?_⟩
  rw [hsnd]
  exact List.Nodup.map (Nat.pow_right_injective (by norm_num)) (List.nodup_range _)

/-- C5 witness: the bound and the positional power-of-two values at a
two-kind schema. -/
theorem C5_witness :
    (["imm16", "off"] : List String).length < 64 ∧
    (immediateFlags ["imm16", "off"]).map Prod.snd =
      (List.range (["imm16", "off"] : List String).length).map (fun i => 2 ^ i) :=
  ⟨by decide, (C5_immediate_flags ["imm16", "off"] (by decide)).2.1⟩

/-- C6: for distinct opcode names (the validity condition of the data model),
the opcode enumeration has one enumerant per input opcode in input order
(named by upper-casing), with value equal to its position, the rendered block
ends with the sentinel line before the closing brace, and the sentinel's
value equals the count of distinct input opcode names. -/
theorem C6_opcode_enum (opcodes : List String) (hnd : opcodes.Nodup) :
    (opcodeEnumerants opcodes).map Prod.fst = opcodes.map opcodeEnumerantName ∧
    (opcodeEnumerants opcodes).map Prod.snd = List.range opcodes.length ∧
    sentinelValue opcodes = opcodes.dedup.length ∧
    opcodeEnumLines opcodes =
      ["/* Listing of opcodes */", "", "enum agx_opcode \x7b"]
      ++ opcodes.map (fun op => "   " ++ opcodeEnumerantName op ++ ",")
      ++ ["   AGX_NUM_OPCODES", "\x7d;", ""] := by
  refine ⟨?_, ?_, ?_, rfl⟩
  · simp only [opcodeEnumerants, List.map_map]
    rw [show (Prod.fst ∘ fun p : Nat × String => (opcodeEnumerantName p.2, p.1)) =
        (opcodeEnumerantName ∘ Prod.snd) from rfl]
    rw [← List.map_map, List.enum_map_snd]
  · simp only [opcodeEnumerants, List.map_map]
    rw [show (Prod.snd ∘ fun p : Nat × String => (opcodeEnumerantName p.2, p.1)) =
        (Prod.fst : Nat × String → Nat) from rfl]
    exact List.enum_map_fst _
  · rw [List.dedup_eq_self.2 hnd]
    rfl

/-- C6 witness: distinctness and the sentinel-equals-distinct-count equation
at the concrete opcode list ["add", "mov"]. -/
theorem C6_witness :
    (["add", "mov"] : List String).Nodup ∧
    sentinelValue ["add", "mov"] = (["add", "mov"] : List String).dedup.length :=
  ⟨by decide, (C6_opcode_enum ["add", "mov"] (by decide)).2.2.1⟩

/-- C8: the spec's concrete scenario: the artifact for `c8Schema` has opcode
enumerants ADD (0) and MOV (1) with sentinel value 2, the immediate flag
AGX_IMMEDIATE_IMM16 with value 1, the size enumeration with values 0, 1, 2,
a reflection function sending the SIZE_16 enumerant to "16", and the
corresponding lines appear in the rendered text, which `render` returns. -/
theorem C8_concrete_scenario :
    opcodeEnumerants c8Schema.opcodes = [("AGX_OPCODE_ADD", 0), ("AGX_OPCODE_MOV", 1)] ∧
    sentinelValue c8Schema.opcodes = 2 ∧
    immediateFlags c8Schema.immediates = [("AGX_IMMEDIATE_IMM16", 1)] ∧
    enumGroupEnumerants "size" [(0, "8"), (1, "16"), (2, "32")] =
      [("AGX_SIZE_8", 0), ("AGX_SIZE_16", 1), ("AGX_SIZE_32", 2)] ∧
    as_str [(0, "8"), (1, "16"), (2, "32")] 1 = some "16" ∧
    "   AGX_OPCODE_ADD," ∈ artifactLines c8Schema ∧
    "   AGX_OPCODE_MOV," ∈ artifactLines c8Schema ∧
    "   AGX_IMMEDIATE_IMM16 = (1ull << 0)," ∈ artifactLines c8Schema ∧
    "   AGX_SIZE_16 = 1," ∈ artifactLines c8Schema ∧
    "    case AGX_SIZE_16: return \"16\";" ∈ artifactLines c8Schema ∧
    render c8Schema = Except.ok (artifactText c8Schema) := by
  refine ⟨by decide, by decide, by decide, by decide, by decide, by decide,
    by decide, by decide, by decide, by decide, ?_⟩
  unfold render
  rw [if_pos (by decide : c8Schema.immediates.length < 64)]

/-- C9: opcode names are normalized by upper-casing only; a dot in an opcode
name survives into the AGX_OPCODE_ enumerant (no dot-to-underscore
replacement, unlike enum-group labels). -/
theorem C9_opcode_dot_preserved (op : String) (h : '.' ∈ op.data) :
    opcodeEnumerantName op = "AGX_OPCODE_" ++ strUpper op ∧
    '.' ∈ (opcodeEnumerantName op).data := by
  refine ⟨rfl, ?_⟩
  have h3 := List.mem_map_of_mem Char.toUpper h
  have h4 : Char.toUpper '.' = '.' := by decide
  rw [h4] at h3
  have h5 : (opcodeEnumerantName op).data =
      "AGX_OPCODE_".data ++ (strUpper op).data := rfl
  rw [h5]
  exact List.mem_append.2 (Or.inr h3)

/-- C9 witness: the opcode "fadd.sat" yields an enumerant that still contains
the dot. -/
theorem C9_witness :
    '.' ∈ ("fadd.sat" : String).data ∧
    '.' ∈ (opcodeEnumerantName "fadd.sat").data :=
  ⟨by decide, (C9_opcode_dot_preserved "fadd.sat" (by decide)).2⟩

end AgxOpcodes
